import Mathlib

/-!
Shallow embedding of the alphavibe strategy-signal / backtest core.

Source files embedded (paths relative to the repository root):
  * `src/utils/cache_manager.py` — `CacheManager.save_to_cache` / `load_from_cache`
  * `src/backtest/backtest_engine.py` — `backtest_strategy`,
    `process_backtest_results`, `calculate_performance`
  * `src/indicators/moving_averages.py` — `sma`
  * `src/indicators/volatility.py` — `bollinger_bands`
  * `src/indicators/momentum.py` — `rsi`
  * `src/strategies/base_strategy.py` — `BaseStrategy.validate_data`
  * `src/strategies/sma_strategy.py`, `bb_strategy.py`, `rsi_strategy.py`
  * `src/strategies/factory.py` — `create_strategy`
  * `main.py` — the fee-charging `backtest_strategy` variant (for reference)

Conventions: monetary values and prices are `ℚ` (Python floats are ideal
reals here; no claim depends on rounding), timestamps are `ℤ` seconds,
a price series is a `List ℚ` of closes indexed by position.  Pandas NaN
cells are `Option` `none`; a NaN comparison (`NaN > x`) is `false`, as in
pandas.  Where the Python code takes a square root (rolling std, Sharpe)
the development keeps the exact square (variance) and encodes the order
comparisons square-free; lemma `ltLowerBand_iff_real` shows the encoding
agrees with the real-number band comparison.
-/

namespace AlphaVibe

/-! ## Cache manager (`src/utils/cache_manager.py`) -/

/-- A request descriptor: the `key_parts` dict as a key/value list. -/
abbrev KeyParts := List (String × String)

/-- Insert into a key-sorted list, before any entry with an equal or larger
key (stable insertion, as Python's `sorted` is stable). -/
def insertByKey (p : String × String) : KeyParts → KeyParts
  | [] => [p]
  | q :: qs => if p.1 ≤ q.1 then p :: q :: qs else q :: insertByKey p qs

/-- `CacheManager._generate_cache_key`: `sorted(key_parts.items())` serialized
and md5-hashed.  The canonical sorted pair list stands for the hex digest:
the digest is a deterministic function of exactly this list, and the claims
compare keys only for equality. -/
def generateCacheKey : KeyParts → KeyParts
  | [] => []
  | p :: ps => insertByKey p (generateCacheKey ps)

/-- One cached payload file together with its metadata
(`{created_at, max_age, key_parts}`). -/
structure CacheEntry (α : Type) where
  payload : α
  createdAt : ℤ
  savedMaxAge : Option ℤ
  keyParts : KeyParts

/-- The cache directory: one entry per (cache key, file extension) path,
i.e. per `get_cache_path(cache_key, extension)`. -/
def CacheDir (α : Type) := List ((KeyParts × String) × CacheEntry α)

/-- Does a file exist at this path, and what does it hold? -/
def dirLookup {α : Type} (d : CacheDir α) (k : KeyParts × String) : Option (CacheEntry α) :=
  (List.find? (fun e => decide (e.1 = k)) d).map (·.2)

/-- `CacheManager.save_to_cache`: compute the key, write the payload and the
metadata sidecar, overwriting whatever was at that path. -/
def saveToCache {α : Type} (d : CacheDir α) (data : α) (keyParts : KeyParts)
    (ext : String) (maxAge : Option ℤ) (now : ℤ) : CacheDir α :=
  let k := (generateCacheKey keyParts, ext)
  ((k, ⟨data, now, maxAge, keyParts⟩)) :: d.filter (fun e => !(decide (e.1 = k)))

/-- Python truthiness of a `timedelta`: the zero delta is falsy. -/
def timedeltaTruthy (t : ℤ) : Bool := !(t == 0)

/-- The guard `if max_age and cache_age > max_age` of `load_from_cache`. -/
def cacheExpired (maxAge : Option ℤ) (cacheAge : ℤ) : Bool :=
  match maxAge with
  | none => false
  | some t => timedeltaTruthy t && decide (t < cacheAge)

/-- `CacheManager.load_from_cache`: recompute the key; a missing file is a
miss; otherwise read `created_at` from the metadata, and return the payload
unless `max_age` is truthy and `now - created_at > max_age`. -/
def loadFromCache {α : Type} (d : CacheDir α) (keyParts : KeyParts)
    (ext : String) (maxAge : Option ℤ) (now : ℤ) : Option α :=
  let k := (generateCacheKey keyParts, ext)
  match dirLookup d k with
  | none => none
  | some e => if cacheExpired maxAge (now - e.createdAt) then none else some e.payload

/-! ## Portfolio simulation (`src/backtest/backtest_engine.py`, `backtest_strategy`) -/

inductive TradeType where
  | buy
  | sell
deriving DecidableEq, Repr

/-- One row of the signal DataFrame a strategy's `generate_signals` hands the
engine: `signal_row.get('type', None)`, `signal_row.get('amount', None)`,
`signal_row.get('ratio', 1.0)`. -/
structure SignalRow where
  stype : Option TradeType
  amount : Option ℚ
  ratio : ℚ := 1
deriving DecidableEq, Repr

/-- The simulator's position bookkeeping: the `cash` and `coin_amount`
loop variables. -/
structure PortfolioState where
  cash : ℚ
  coin : ℚ
deriving DecidableEq, Repr

/-- One entry of `trade_history`. -/
structure TradeRecord where
  rowIdx : ℕ
  ttype : TradeType
  price : ℚ
  amount : ℚ
  coinAmount : ℚ
deriving DecidableEq, Repr

/-- The body of `for _, signal_row in signals_on_date.iterrows()`: a buy
(while `cash > 0`) spends `cash * ratio` (or `min(amount, cash)`) at the
close with no fee; a sell (while `coin_amount > 0`) liquidates
`coin_amount * ratio` (or `min(amount, coin_amount)`) at the close with no
fee.  Note: neither leg multiplies by `(1 - fee_rate)`. -/
def applySignalRow (i : ℕ) (price : ℚ) (st : PortfolioState) (row : SignalRow) :
    PortfolioState × Option TradeRecord :=
  match row.stype with
  | some .buy =>
    if 0 < st.cash then
      let buyCash := match row.amount with
        | none => st.cash * row.ratio
        | some a => min a st.cash
      let coinToBuy := buyCash / price
      (⟨st.cash - buyCash, st.coin + coinToBuy⟩, some ⟨i, .buy, price, buyCash, coinToBuy⟩)
    else (st, none)
  | some .sell =>
    if 0 < st.coin then
      let coinToSell := match row.amount with
        | none => st.coin * row.ratio
        | some a => min a st.coin
      let sellCash := coinToSell * price
      (⟨st.cash + sellCash, st.coin - coinToSell⟩, some ⟨i, .sell, price, sellCash, coinToSell⟩)
    else (st, none)
  | none => (st, none)

/-- Process every signal row attached to one date, in order. -/
def applySignals (i : ℕ) (price : ℚ) (st : PortfolioState) :
    List SignalRow → PortfolioState × List TradeRecord
  | [] => (st, [])
  | r :: rs =>
    let p := applySignalRow i price st r
    let q := applySignals i price p.1 rs
    (q.1, p.2.toList ++ q.2)

/-- `signals[~signals.index.duplicated(keep='first')]`: keep the first signal
row per index value. -/
def dedupKeepFirstAux (seen : List ℕ) : List (ℕ × SignalRow) → List (ℕ × SignalRow)
  | [] => []
  | p :: ps =>
    if seen.contains p.1 then dedupKeepFirstAux seen ps
    else p :: dedupKeepFirstAux (p.1 :: seen) ps

/-- `signals[~signals.index.duplicated(keep='first')]` continued: keep each
row whose index value has not appeared before it. -/
def dedupKeepFirst (l : List (ℕ × SignalRow)) : List (ℕ × SignalRow) :=
  dedupKeepFirstAux [] l

/-- The signal rows the deduplicated signal frame holds at row index `i`
(`signals.loc[date]`, empty when `date not in signals.index`). -/
def sigRowsAt (sigs : List (ℕ × SignalRow)) (i : ℕ) : List SignalRow :=
  ((dedupKeepFirst sigs).filter (fun p => p.1 == i)).map (·.2)

/-- The `(cash, coin_amount)` state entering iteration `i` of the engine's
main loop (the loop appends this state to `cash_history` /
`coin_amount_history` before executing the date's signals). -/
def stateAt (prices : List ℚ) (sigs : List (ℕ × SignalRow)) (initialCapital : ℚ) :
    ℕ → PortfolioState
  | 0 => ⟨initialCapital, 0⟩
  | i + 1 =>
    (applySignals i (prices.getD i 0) (stateAt prices sigs initialCapital i)
      (sigRowsAt sigs i)).1

/-- The trades executed at iteration `i`. -/
def tradesAt (prices : List ℚ) (sigs : List (ℕ × SignalRow)) (initialCapital : ℚ)
    (i : ℕ) : List TradeRecord :=
  (applySignals i (prices.getD i 0) (stateAt prices sigs initialCapital i)
    (sigRowsAt sigs i)).2

/-- `cash_history`: the cash entering each iteration. -/
def cashHistory (prices : List ℚ) (sigs : List (ℕ × SignalRow)) (initialCapital : ℚ) :
    List ℚ :=
  (List.range prices.length).map (fun i => (stateAt prices sigs initialCapital i).cash)

/-- `coin_amount_history`: the coin amount entering each iteration. -/
def coinHistory (prices : List ℚ) (sigs : List (ℕ × SignalRow)) (initialCapital : ℚ) :
    List ℚ :=
  (List.range prices.length).map (fun i => (stateAt prices sigs initialCapital i).coin)

/-- `trade_history` of the whole run. -/
def tradeHistory (prices : List ℚ) (sigs : List (ℕ × SignalRow)) (initialCapital : ℚ) :
    List TradeRecord :=
  ((List.range prices.length).map (tradesAt prices sigs initialCapital)).flatten

/-- `final_asset = cash + coin_amount * df['close'].iloc[-1]`. -/
def finalAsset (prices : List ℚ) (sigs : List (ℕ × SignalRow)) (initialCapital : ℚ) : ℚ :=
  let st := stateAt prices sigs initialCapital prices.length
  st.cash + st.coin * prices.getD (prices.length - 1) 0

/-- `COMMISSION_RATE = 0.0005` (`src/utils/config.py`): the repository's
trading fee rate constant. -/
def commissionRate : ℚ := 5 / 10000

/-- The error results `backtest_strategy` can return instead of a backtest. -/
inductive BacktestError where
  | insufficientData
  | missingRequiredColumn
  | strategyExecutionFailed
  | noSignalsGenerated
deriving DecidableEq, Repr

/-- The parts of the `backtest_result` dict the claims are about. -/
structure BacktestOutcome where
  finalAsset : ℚ
  cashBalance : ℚ
  coinBalance : ℚ
  cashHistory : List ℚ
  coinHistory : List ℚ
  trades : List TradeRecord
deriving DecidableEq, Repr

/-- The whole-run part of `backtest_strategy`, after the signal frame is in
hand. -/
def backtestStrategyRun (prices : List ℚ) (sigs : List (ℕ × SignalRow))
    (initialCapital : ℚ) : BacktestOutcome :=
  let st := stateAt prices sigs initialCapital prices.length
  { finalAsset := finalAsset prices sigs initialCapital
    cashBalance := st.cash
    coinBalance := st.coin
    cashHistory := cashHistory prices sigs initialCapital
    coinHistory := coinHistory prices sigs initialCapital
    trades := tradeHistory prices sigs initialCapital }

/-- `backtest_strategy` top to bottom: the `len(df) < 10` guard (before the
strategy function is ever consulted), the required-column check, the
strategy call (an exception becomes `strategy_execution_failed`), the
empty-signal check, then the simulation loop. -/
def backtestStrategyTop (prices : List ℚ) (columnsOk : Bool)
    (strategyFunc : List ℚ → Except String (List (ℕ × SignalRow)))
    (initialCapital : ℚ) : Except BacktestError BacktestOutcome :=
  if prices.length < 10 then .error .insufficientData
  else if !columnsOk then .error .missingRequiredColumn
  else
    match strategyFunc prices with
    | .error _ => .error .strategyExecutionFailed
    | .ok sigs =>
      if sigs.isEmpty then .error .noSignalsGenerated
      else .ok (backtestStrategyRun prices sigs initialCapital)

/-! ## Annualized return (`process_backtest_results` and `calculate_performance`) -/

/-- Real exponentiation `base ** e`, restricted to the exponents with an
integer value, where the result is the rational `base ^ e.num`; `none` marks
an exponent at which the float power has no rational counterpart.  Every
claim about the annualization evaluates it at an integer exponent. -/
def qpowOpt (base e : ℚ) : Option ℚ :=
  if e.den = 1 then some (base ^ e.num) else none

/-- `process_backtest_results`:
`(((1 + total_return_pct/100) ** (365/total_days)) - 1) * 100` when
`total_days > 0`, else `0`. -/
def pbrAnnualReturnPct (totalReturnPct : ℚ) (totalDays : ℤ) : Option ℚ :=
  if 0 < totalDays then
    (qpowOpt (1 + totalReturnPct / 100) (365 / (totalDays : ℚ))).map (fun x => (x - 1) * 100)
  else some 0

/-- The exponent `calculate_performance` annualizes with:
`years = total_days / 365.0`, then `1 / max(years, 0.01)`. -/
def cpAnnualExponent (totalDays : ℤ) : ℚ :=
  let years : ℚ := (totalDays : ℚ) / 365
  1 / max years (1 / 100)

/-- The exponent the spec's formula `(final/initial)^(365/total_days)` uses. -/
def specAnnualExponent (totalDays : ℤ) : ℚ := 365 / (totalDays : ℚ)

/-- `calculate_performance`'s annualized return:
`(((1 + total_return_pct/100) ** (1/max(years, 0.01))) - 1) * 100`. -/
def cpAnnualReturnPct (totalReturnPct : ℚ) (totalDays : ℤ) : Option ℚ :=
  (qpowOpt (1 + totalReturnPct / 100) (cpAnnualExponent totalDays)).map
    (fun x => (x - 1) * 100)

/-! ## Performance metrics (`calculate_performance`) -/

/-- `asset_history`: `cash_history[i] + coin_amount_history[i] * close[i]`
over `range(min(len(df), len(cash_history), len(coin_amount_history)))`. -/
def assetHistory (closes cashH coinH : List ℚ) : List ℚ :=
  (List.range (min closes.length (min cashH.length coinH.length))).map
    (fun i => cashH.getD i 0 + coinH.getD i 0 * closes.getD i 0)

/-- `asset_series.pct_change().dropna()`. -/
def dailyReturns (assets : List ℚ) : List ℚ :=
  List.zipWith (fun prev cur => cur / prev - 1) assets assets.tail

/-- Pandas sample variance (`ddof=1`), the square of `Series.std()`;
`none` is the NaN a series shorter than 2 yields.  `Series.std() > 0` is
exactly `0 < sampleVar` on `some`, and `false` on `none` (NaN compares
false).  The code takes the variance of `daily_returns - daily_risk_free`;
subtracting a constant leaves the variance unchanged, so this is also the
variance of `excess_returns`. -/
def sampleVar (xs : List ℚ) : Option ℚ :=
  if xs.length < 2 then none
  else
    let mean := xs.sum / xs.length
    some ((xs.map (fun x => (x - mean) ^ 2)).sum / ((xs.length : ℚ) - 1))

/-- `Series.cummax`. -/
def cummaxAux (m : ℚ) : List ℚ → List ℚ
  | [] => []
  | x :: xs => max m x :: cummaxAux (max m x) xs

/-- `peak = asset_series.cummax()`. -/
def cummax : List ℚ → List ℚ
  | [] => []
  | x :: xs => x :: cummaxAux x xs

/-- `drawdown = (asset_series - peak) / peak * 100`. -/
def drawdownPcts (assets : List ℚ) : List ℚ :=
  List.zipWith (fun a p => (a - p) / p * 100) assets (cummax assets)

/-- `Series.min()` of a list, with a default for the empty series. -/
def listMinD (xs : List ℚ) (d : ℚ) : ℚ :=
  match xs with
  | [] => d
  | x :: rest => rest.foldl min x

/-- The win/loss counters the buy/sell matching loop accumulates. -/
structure TradeStats where
  winningTrades : ℕ
  losingTrades : ℕ
  totalProfit : ℚ
  totalLoss : ℚ
deriving DecidableEq, Repr

/-- The matching loop of `calculate_performance`: for each sell (in order),
find the latest buy strictly before it; a positive price differential is a
win, otherwise a loss. -/
def matchTrades (trades : List TradeRecord) : TradeStats :=
  let buys := trades.filter (fun t => t.ttype == TradeType.buy)
  let sells := trades.filter (fun t => t.ttype == TradeType.sell)
  sells.foldl
    (fun s sell =>
      let prevBuys := buys.filter (fun b => decide (b.rowIdx < sell.rowIdx))
      match prevBuys.getLast? with
      | none => s
      | some b =>
        let pl := (sell.price - b.price) / b.price * 100
        if 0 < pl then
          { s with winningTrades := s.winningTrades + 1, totalProfit := s.totalProfit + pl }
        else
          { s with losingTrades := s.losingTrades + 1, totalLoss := s.totalLoss + |pl| })
    ⟨0, 0, 0, 0⟩

/-- The metrics of `calculate_performance` the claims are about.  Fields
whose float value is irrational (a nondegenerate Sharpe ratio, an annualized
return at a fractional exponent) are `none`; the annualized volatility
(`std * √252`, irrational, named by no claim) is left out. -/
structure PerfMetrics where
  maxDrawdownPct : ℚ
  annualReturnPct : Option ℚ
  sharpeRatio : Option ℚ
  winningRatio : ℚ
  avgProfitPerTrade : ℚ
  avgLossPerTrade : ℚ
deriving DecidableEq, Repr

/-- The dict the `len(asset_history) < 2` branch returns: every metric an
explicit zero. -/
def zeroPerfMetrics : PerfMetrics :=
  { maxDrawdownPct := 0
    annualReturnPct := some 0
    sharpeRatio := some 0
    winningRatio := 0
    avgProfitPerTrade := 0
    avgLossPerTrade := 0 }

/-- `calculate_performance(df, trade_df, cash_history, coin_amount_history,
initial_capital)`.  `days` are the day numbers of `df.index`
(`total_days = (end_date - start_date).days`). -/
def calcPerformance (days : List ℤ) (closes : List ℚ) (trades : List TradeRecord)
    (cashH coinH : List ℚ) (initialCapital : ℚ) : PerfMetrics :=
  let assets := assetHistory closes cashH coinH
  if assets.length < 2 then zeroPerfMetrics
  else
    let totalDays : ℤ := days.getD (days.length - 1) 0 - days.getD 0 0
    let finalAsset := assets.getD (assets.length - 1) 0
    let totalReturnPct := (finalAsset - initialCapital) / initialCapital * 100
    let returns := dailyReturns assets
    -- `sharpe_ratio = ... if excess_returns.std() > 0 else 0`; the nonzero
    -- branch (mean/std · √252) is irrational and marked `none`
    let sharpe : Option ℚ :=
      match sampleVar returns with
      | some v => if 0 < v then none else some 0
      | none => some 0
    let s := matchTrades trades
    let total := s.winningTrades + s.losingTrades
    { maxDrawdownPct := listMinD (drawdownPcts assets) 0
      annualReturnPct := cpAnnualReturnPct totalReturnPct totalDays
      sharpeRatio := sharpe
      winningRatio := if 0 < total then (s.winningTrades : ℚ) / (total : ℚ) * 100 else 0
      avgProfitPerTrade :=
        if 0 < s.winningTrades then s.totalProfit / (s.winningTrades : ℚ) else 0
      avgLossPerTrade :=
        if 0 < s.losingTrades then s.totalLoss / (s.losingTrades : ℚ) else 0 }

/-! ## Rolling indicators (`src/indicators/moving_averages.py`, `volatility.py`) -/

/-- The `w` observations ending at index `i` (the window of
`series.rolling(window=w)` at `i`, when `w ≤ i + 1`). -/
def windowAt (xs : List ℚ) (w i : ℕ) : List ℚ :=
  (xs.take (i + 1)).drop (i + 1 - w)

/-- `series.rolling(window=w).mean()` at index `i`; `none` is the NaN of the
first `w - 1` positions. -/
def rollingMeanAt (xs : List ℚ) (w i : ℕ) : Option ℚ :=
  if 1 ≤ w ∧ w ≤ i + 1 ∧ i < xs.length then
    some ((windowAt xs w i).sum / (w : ℚ))
  else none

/-- The square of `series.rolling(window=w).std()` at index `i`: the sample
variance (ddof = 1) of the window.  `none` where the std is NaN (`i < w - 1`,
or `w = 1` where `0/0` is NaN).  The strategy reads the std only through
order comparisons against the bands, which the development encodes
square-free (`ltLowerBand`, `gtUpperBand`). -/
def rollingVarAt (xs : List ℚ) (w i : ℕ) : Option ℚ :=
  if 2 ≤ w ∧ w ≤ i + 1 ∧ i < xs.length then
    let win := windowAt xs w i
    let m := win.sum / (w : ℚ)
    some ((win.map (fun x => (x - m) ^ 2)).sum / ((w : ℚ) - 1))
  else none

/-- `close < middle - k·√var` (the lower Bollinger band test) without the
square root: for `k ≥ 0`, `v ≥ 0` this is equivalent to the real comparison
(lemma `ltLowerBand_iff_real`). -/
def ltLowerBand (c m k v : ℚ) : Bool :=
  decide (c < m) && decide (k ^ 2 * v < (m - c) ^ 2)

/-- `close > middle + k·√var` (the upper Bollinger band test) without the
square root: for `k ≥ 0`, `v ≥ 0` equivalent to the real comparison
(lemma `gtUpperBand_iff_real`). -/
def gtUpperBand (c m k v : ℚ) : Bool :=
  decide (m < c) && decide (k ^ 2 * v < (c - m) ^ 2)

/-! ## Strategy plumbing (`src/strategies/base_strategy.py`) -/

/-- The `ValueError` `BaseStrategy.validate_data` raises when the input is
shorter than `get_min_required_rows()` (the message carries both counts). -/
inductive StrategyError where
  | insufficientData (required got : ℕ)
deriving DecidableEq, Repr

/-- `BaseStrategy.validate_data`: raise when `len(df) < min_required_rows`,
otherwise hand the frame through unchanged. -/
def validateData (minRequiredRows : ℕ) (closes : List ℚ) :
    Except StrategyError (List ℚ) :=
  if closes.length < minRequiredRows then
    .error (.insufficientData minRequiredRows closes.length)
  else .ok closes

/-- The `signal` and `position` columns an `apply()` returns. -/
structure StrategyOutput where
  signal : List ℤ
  position : List (Option ℤ)
deriving DecidableEq, Repr

/-- `df['position'] = df['signal'].diff()` followed by the override
`df.loc[first_valid_idx, 'position'] = df.loc[first_valid_idx, 'signal']`;
`none` is the NaN `diff()` leaves at index 0. -/
def diffPosition (signals : List ℤ) (firstValid : Option ℕ) : List (Option ℤ) :=
  (List.range signals.length).map (fun i =>
    if firstValid = some i then some (signals.getD i 0)
    else if i = 0 then none
    else some (signals.getD i 0 - signals.getD (i - 1) 0))

/-! ## SMA strategy (`src/strategies/sma_strategy.py`) -/

/-- Is row `i` in `valid_idx` (both rolling means defined)? -/
def smaValidAt (closes : List ℚ) (shortW longW i : ℕ) : Bool :=
  (rollingMeanAt closes shortW i).isSome && (rollingMeanAt closes longW i).isSome

/-- The SMA signal column at row `i`: start at 0, set `+1` where
`short_ma > long_ma`, `-1` where `short_ma < long_ma`, on valid rows. -/
def smaSignalAt (closes : List ℚ) (shortW longW : ℕ) (i : ℕ) : ℤ :=
  match rollingMeanAt closes shortW i, rollingMeanAt closes longW i with
  | some s, some l => if l < s then 1 else if s < l then -1 else 0
  | _, _ => 0

/-- `SMAStrategy.apply`: validate against `long_window + 5`
(`get_min_required_rows`), compute the two rolling means, the signal column
and the diffed position column. -/
def smaApply (closes : List ℚ) (shortW longW : ℕ) :
    Except StrategyError StrategyOutput :=
  match validateData (longW + 5) closes with
  | .error e => .error e
  | .ok df =>
    let signals := (List.range df.length).map (smaSignalAt df shortW longW)
    let firstValid := (List.range df.length).find? (smaValidAt df shortW longW)
    .ok ⟨signals, diffPosition signals firstValid⟩

/-! ## Bollinger strategy (`src/strategies/bb_strategy.py`) -/

/-- `valid_idx = ma.notna & upper_band.notna & lower_band.notna`: the middle
band and the std (hence both true bands) defined. -/
def bbValidAt (closes : List ℚ) (w i : ℕ) : Bool :=
  (rollingMeanAt closes w i).isSome && (rollingVarAt closes w i).isSome

/-- The Bollinger signal column at row `i`.  `bollinger_bands` returns
`(middle, upper, lower)`, but `apply` unpacks the tuple as
`df['upper_band'], df['ma'], df['lower_band'] = bollinger_bands(...)`, so
the column named `upper_band` holds the MIDDLE band: the sell test
`close > df['upper_band']` compares the close with the rolling mean.  The
buy test `close < df['lower_band']` does use the true lower band.  The sell
assignment comes second in the source, so it wins where both tests hold. -/
def bbSignalAt (closes : List ℚ) (w : ℕ) (k : ℚ) (i : ℕ) : ℤ :=
  match rollingMeanAt closes w i, rollingVarAt closes w i with
  | some m, some v =>
    let c := closes.getD i 0
    if m < c then -1
    else if ltLowerBand c m k v then 1
    else 0
  | _, _ => 0

/-- `BollingerBandsStrategy.apply`: validate against `window + 5`, compute
the bands, the signal column and the diffed position column. -/
def bbApply (closes : List ℚ) (w : ℕ) (k : ℚ) :
    Except StrategyError StrategyOutput :=
  match validateData (w + 5) closes with
  | .error e => .error e
  | .ok df =>
    let signals := (List.range df.length).map (bbSignalAt df w k)
    let firstValid := (List.range df.length).find? (bbValidAt df w)
    .ok ⟨signals, diffPosition signals firstValid⟩

/-! ## RSI indicator and strategy (`src/indicators/momentum.py`,
`src/strategies/rsi_strategy.py`) -/

/-- `gain = delta.where(delta > 0, 0)`: the positive part of
`series.diff()`, with the leading NaN replaced by 0 (NaN > 0 is false). -/
def gains (xs : List ℚ) : List ℚ :=
  (List.range xs.length).map (fun i =>
    if i = 0 then 0 else max (xs.getD i 0 - xs.getD (i - 1) 0) 0)

/-- `loss = -delta.where(delta < 0, 0)`. -/
def losses (xs : List ℚ) : List ℚ :=
  (List.range xs.length).map (fun i =>
    if i = 0 then 0 else max (xs.getD (i - 1) 0 - xs.getD i 0) 0)

/-- `Series.ewm(com=w-1, adjust=True).mean()` at index `i`:
`α = 1/(1+com) = 1/w`, the weighted average with weights `(1-α)^j` over the
`i+1` observations so far. -/
def ewmAdjAt (xs : List ℚ) (w : ℕ) (i : ℕ) : ℚ :=
  let a : ℚ := 1 - 1 / (w : ℚ)
  (((List.range (i + 1)).map (fun j => a ^ j * xs.getD (i - j) 0)).sum) /
    (((List.range (i + 1)).map (fun j => a ^ j)).sum)

/-- `rsi(series, window)` at index `i`: the all-NaN early return when
`len(series) <= window`; NaN below `min_periods=window` observations;
otherwise `100 - 100/(1 + rs)` with
`rs = avg_gain / max(avg_loss, 1e-10)`. -/
def rsiAt (closes : List ℚ) (w : ℕ) (i : ℕ) : Option ℚ :=
  if closes.length ≤ w then none
  else if i + 1 < w ∨ closes.length ≤ i then none
  else
    let avgGain := ewmAdjAt (gains closes) w i
    let avgLoss := ewmAdjAt (losses closes) w i
    let rs := avgGain / max avgLoss (1 / 10 ^ 10)
    some (100 - 100 / (1 + rs))

/-- The nine constructor parameters of `RSIStrategy` (defaults as in
`__init__`).  `apply` reads `window`, `overbought`, `oversold`,
`price_check_period`, `min_price_drop`, `min_price_rise` and
`min_holding_period`; it never reads `exit_overbought` or `exit_oversold`. -/
structure RsiParams where
  window : ℕ := 14
  overbought : ℚ := 70
  oversold : ℚ := 30
  exitOverbought : ℚ := 50
  exitOversold : ℚ := 50
  priceCheckPeriod : ℕ := 7
  minPriceDrop : ℚ := 5
  minPriceRise : ℚ := 5
  minHoldingPeriod : ℕ := 3
deriving DecidableEq, Repr

/-- Python's `xs[a:b]` for `b ≥ 0`: a negative start counts from the end and
clamps at 0. -/
def pySlice (xs : List ℚ) (a : ℤ) (b : ℕ) : List ℚ :=
  let start : ℕ := if a < 0 then ((xs.length : ℤ) + a).toNat else min a.toNat xs.length
  (xs.take b).drop start

def listMax? : List ℚ → Option ℚ
  | [] => none
  | x :: rest => some (rest.foldl max x)

def listMin? : List ℚ → Option ℚ
  | [] => none
  | x :: rest => some (rest.foldl min x)

/-- The buy-side price filter:
`price_drop = (close[i] / close[i-pcp:i].max() - 1) * 100`, require
`price_drop < 0 and abs(price_drop) >= min_price_drop`.  An empty slice
gives a NaN maximum and the condition is false. -/
def priceDropOk (closes : List ℚ) (pcp : ℕ) (minDrop : ℚ) (i : ℕ) : Bool :=
  match listMax? (pySlice closes ((i : ℤ) - (pcp : ℤ)) i) with
  | none => false
  | some mx =>
    let priceDrop := (closes.getD i 0 / mx - 1) * 100
    decide (priceDrop < 0) && decide (minDrop ≤ |priceDrop|)

/-- The sell-side price filter:
`price_rise = (close[i] / close[i-pcp:i].min() - 1) * 100`, require
`price_rise > 0 and price_rise >= min_price_rise`. -/
def priceRiseOk (closes : List ℚ) (pcp : ℕ) (minRise : ℚ) (i : ℕ) : Bool :=
  match listMin? (pySlice closes ((i : ℤ) - (pcp : ℤ)) i) with
  | none => false
  | some mn =>
    let priceRise := (closes.getD i 0 / mn - 1) * 100
    decide (0 < priceRise) && decide (minRise ≤ priceRise)

/-- The signal loop of `RSIStrategy.apply` (it writes `signal[i]` from data
at `i` and `i-1` only, so it is a pointwise rule): from index 1 on, on rows
where this and the previous RSI are defined, a buy requires the previous
RSI below `oversold`, a rising RSI now above `oversold`, and the price-drop
filter; else a sell requires the previous RSI above `overbought`, a falling
RSI now below `overbought`, and the price-rise filter. -/
def rsiRawSignalAt (closes : List ℚ) (p : RsiParams) (i : ℕ) : ℤ :=
  if i = 0 then 0
  else
    match rsiAt closes p.window i, rsiAt closes p.window (i - 1) with
    | some ri, some rim =>
      if rim < p.oversold ∧ rim < ri ∧ p.oversold < ri then
        if priceDropOk closes p.priceCheckPeriod p.minPriceDrop i then 1 else 0
      else if p.overbought < rim ∧ ri < rim ∧ ri < p.overbought then
        if priceRiseOk closes p.priceCheckPeriod p.minPriceRise i then -1 else 0
      else 0
    | _, _ => 0

/-- The minimum-holding-period pass: walk the signal column with the
`last_trade_idx` state; a nonzero signal within `min_holding_period` rows of
the last kept one (on a valid row) is zeroed, otherwise it is kept and
becomes the new `last_trade_idx`. -/
def holdingFilterGo (valid : ℕ → Bool) (mhp : ℕ) :
    ℕ → Option ℕ → List ℤ → List ℤ
  | _, _, [] => []
  | i, last, s :: rest =>
    if !(valid i) then s :: holdingFilterGo valid mhp (i + 1) last rest
    else if s ≠ 0 then
      match last with
      | some l =>
        if i - l < mhp then 0 :: holdingFilterGo valid mhp (i + 1) (some l) rest
        else s :: holdingFilterGo valid mhp (i + 1) (some i) rest
      | none => s :: holdingFilterGo valid mhp (i + 1) (some i) rest
    else s :: holdingFilterGo valid mhp (i + 1) last rest

/-- The full signal column of `RSIStrategy.apply`: the raw loop, then the
holding filter (skipped when `min_holding_period` is 0). -/
def rsiSignals (closes : List ℚ) (p : RsiParams) : List ℤ :=
  let raw := (List.range closes.length).map (rsiRawSignalAt closes p)
  if 0 < p.minHoldingPeriod then
    holdingFilterGo (fun i => (rsiAt closes p.window i).isSome) p.minHoldingPeriod 0 none raw
  else raw

/-- `RSIStrategy.apply`: validate against `window + 10`, compute the RSI,
the signal column and the diffed position column (here `first_valid_idx` is
the first valid row with a nonzero signal). -/
def rsiApply (closes : List ℚ) (p : RsiParams) :
    Except StrategyError StrategyOutput :=
  match validateData (p.window + 10) closes with
  | .error e => .error e
  | .ok df =>
    let signals := rsiSignals df p
    let firstValid := (List.range df.length).find? (fun i =>
      (rsiAt df p.window i).isSome && !(signals.getD i 0 == 0))
    .ok ⟨signals, diffPosition signals firstValid⟩

/-! ## Strategy factory (`src/strategies/factory.py`) -/

/-- One entry of a strategy's `register_strategy_params()` list (the fields
the validation claim is about). -/
structure ParamSpec where
  name : String
  default : ℚ
  min : ℚ
  max : ℚ
deriving DecidableEq, Repr

/-- `SMAStrategy.register_strategy_params()`. -/
def smaParamSpecs : List ParamSpec :=
  [⟨"short_window", 10, 2, 50⟩, ⟨"long_window", 30, 5, 200⟩]

/-- `BollingerBandsStrategy.register_strategy_params()`. -/
def bbParamSpecs : List ParamSpec :=
  [⟨"window", 20, 5, 100⟩, ⟨"std_dev", 2, 1 / 2, 4⟩]

/-- `RSIStrategy.register_strategy_params()`. -/
def rsiParamSpecs : List ParamSpec :=
  [⟨"window", 14, 2, 50⟩, ⟨"overbought", 70, 50, 90⟩, ⟨"oversold", 30, 10, 50⟩,
   ⟨"exit_overbought", 50, 40, 60⟩, ⟨"exit_oversold", 50, 40, 60⟩,
   ⟨"price_check_period", 7, 1, 30⟩, ⟨"min_price_drop", 5, 0, 20⟩,
   ⟨"min_price_rise", 5, 0, 20⟩, ⟨"min_holding_period", 3, 0, 30⟩]

/-- Python's `str.lower()`: lower-case the string character by character
(`String.toLower` is the same map, written here over the character list so
that it evaluates by kernel reduction). -/
def pyLower (s : String) : String := ⟨s.data.map Char.toLower⟩

/-- `kwargs.get(name, default)` over a keyword-argument list. -/
def kwGetD (kw : List (String × ℚ)) (name : String) (d : ℚ) : ℚ :=
  ((kw.find? (fun p => p.1 == name)).map (·.2)).getD d

/-- The constructor parameters of `SMAStrategy` with their defaults. -/
structure SmaCtorParams where
  shortWindow : ℚ := 10
  longWindow : ℚ := 30
deriving DecidableEq, Repr

/-- The constructor parameters of `BollingerBandsStrategy`. -/
structure BbCtorParams where
  window : ℚ := 20
  stdDev : ℚ := 2
deriving DecidableEq, Repr

/-- The constructor parameters of `MACDStrategy`. -/
structure MacdCtorParams where
  shortWindow : ℚ := 12
  longWindow : ℚ := 26
  signalWindow : ℚ := 9
  minCrossoverThreshold : ℚ := 1 / 10
  minHoldingPeriod : ℚ := 10
  trendConfirmationPeriod : ℚ := 3
  minHistogramValue : ℚ := 1 / 100
  maTrendPeriod : ℚ := 50
deriving DecidableEq, Repr

/-- The constructor parameters of `RSIStrategy`. -/
structure RsiCtorParams where
  window : ℚ := 14
  overbought : ℚ := 70
  oversold : ℚ := 30
  exitOverbought : ℚ := 50
  exitOversold : ℚ := 50
  priceCheckPeriod : ℚ := 7
  minPriceDrop : ℚ := 5
  minPriceRise : ℚ := 5
  minHoldingPeriod : ℚ := 3
deriving DecidableEq, Repr

/-- A constructed strategy object. -/
inductive StrategyInst where
  | sma (p : SmaCtorParams)
  | bb (p : BbCtorParams)
  | macd (p : MacdCtorParams)
  | rsi (p : RsiCtorParams)
deriving DecidableEq, Repr

/-- The per-strategy keyword filter of `create_strategy` (the keys each
branch keeps).  For `rsi` this is a strict subset of the nine declared
parameter specs. -/
def factoryWhitelist (code : String) : List String :=
  if code = "sma" then ["short_window", "long_window"]
  else if code = "bb" then ["window", "std_dev"]
  else if code = "macd" then ["short_window", "long_window", "signal_window"]
  else if code = "rsi" then ["window", "overbought", "oversold"]
  else []

/-- `create_strategy(strategy_name, **kwargs)`: look the lower-cased code up
(unknown code: `None`), keep only whitelisted keys, and call the constructor
with them — missing keys fall back to the constructor defaults.  No value is
compared against any spec's `min`/`max`. -/
def createStrategy (strategyName : String) (kwargs : List (String × ℚ)) :
    Option StrategyInst :=
  let code := pyLower strategyName
  let fp := kwargs.filter (fun p => (factoryWhitelist code).contains p.1)
  if code = "sma" then
    some (.sma ⟨kwGetD fp "short_window" 10, kwGetD fp "long_window" 30⟩)
  else if code = "bb" then
    some (.bb ⟨kwGetD fp "window" 20, kwGetD fp "std_dev" 2⟩)
  else if code = "macd" then
    some (.macd ⟨kwGetD fp "short_window" 12, kwGetD fp "long_window" 26,
      kwGetD fp "signal_window" 9, 1 / 10, 10, 3, 1 / 100, 50⟩)
  else if code = "rsi" then
    some (.rsi ⟨kwGetD fp "window" 14, kwGetD fp "overbought" 70,
      kwGetD fp "oversold" 30, 50, 50, 7, 5, 5, 3⟩)
  else none

/-! ## Signal-row constants used by the round-trip statements -/

/-- The buy row a strategy's `generate_signals` emits: `type='buy'`,
`ratio=1.0`, no `amount`. -/
def buyAllRow : SignalRow := ⟨some .buy, none, 1⟩

/-- The sell row: `type='sell'`, `ratio=1.0`, no `amount`. -/
def sellAllRow : SignalRow := ⟨some .sell, none, 1⟩

/-! # Theorems -/

/-- The square-free lower-band test agrees with the real comparison
`close < middle - k·√var` whenever `k ≥ 0` and `v ≥ 0`. -/
theorem ltLowerBand_iff_real (c m k v : ℚ) (hk : 0 ≤ k) (hv : 0 ≤ v) :
    ltLowerBand c m k v = true ↔ (c : ℝ) < (m : ℝ) - (k : ℝ) * Real.sqrt (v : ℝ) := by
  have hs : 0 ≤ Real.sqrt (v : ℝ) := Real.sqrt_nonneg _
  have hk' : (0 : ℝ) ≤ (k : ℝ) := by exact_mod_cast hk
  have hv' : (0 : ℝ) ≤ (v : ℝ) := by exact_mod_cast hv
  have ha : (0 : ℝ) ≤ (k : ℝ) * Real.sqrt (v : ℝ) := mul_nonneg hk' hs
  have hsq : ((k : ℝ) * Real.sqrt (v : ℝ)) ^ 2 = (k : ℝ) ^ 2 * (v : ℝ) := by
    rw [mul_pow, Real.sq_sqrt hv']
  simp only [ltLowerBand, Bool.and_eq_true, decide_eq_true_eq]
  constructor
  · rintro ⟨h1, h2⟩
    have h1' : (c : ℝ) < (m : ℝ) := by exact_mod_cast h1
    have h2' : (k : ℝ) ^ 2 * (v : ℝ) < ((m : ℝ) - (c : ℝ)) ^ 2 := by exact_mod_cast h2
    nlinarith [hsq, ha, h1', h2']
  · intro h
    have h1' : (c : ℝ) < (m : ℝ) := by nlinarith [ha, h]
    have h2' : (k : ℝ) ^ 2 * (v : ℝ) < ((m : ℝ) - (c : ℝ)) ^ 2 := by nlinarith [hsq, ha, h]
    exact ⟨by exact_mod_cast h1', by exact_mod_cast h2'⟩

/-- The square-free upper-band test agrees with the real comparison
`close > middle + k·√var` whenever `k ≥ 0` and `v ≥ 0`. -/
theorem gtUpperBand_iff_real (c m k v : ℚ) (hk : 0 ≤ k) (hv : 0 ≤ v) :
    gtUpperBand c m k v = true ↔ (m : ℝ) + (k : ℝ) * Real.sqrt (v : ℝ) < (c : ℝ) := by
  have hs : 0 ≤ Real.sqrt (v : ℝ) := Real.sqrt_nonneg _
  have hk' : (0 : ℝ) ≤ (k : ℝ) := by exact_mod_cast hk
  have hv' : (0 : ℝ) ≤ (v : ℝ) := by exact_mod_cast hv
  have ha : (0 : ℝ) ≤ (k : ℝ) * Real.sqrt (v : ℝ) := mul_nonneg hk' hs
  have hsq : ((k : ℝ) * Real.sqrt (v : ℝ)) ^ 2 = (k : ℝ) ^ 2 * (v : ℝ) := by
    rw [mul_pow, Real.sq_sqrt hv']
  simp only [gtUpperBand, Bool.and_eq_true, decide_eq_true_eq]
  constructor
  · rintro ⟨h1, h2⟩
    have h1' : (m : ℝ) < (c : ℝ) := by exact_mod_cast h1
    have h2' : (k : ℝ) ^ 2 * (v : ℝ) < ((c : ℝ) - (m : ℝ)) ^ 2 := by exact_mod_cast h2
    nlinarith [hsq, ha, h1', h2']
  · intro h
    have h1' : (m : ℝ) < (c : ℝ) := by nlinarith [ha, h]
    have h2' : (k : ℝ) ^ 2 * (v : ℝ) < ((c : ℝ) - (m : ℝ)) ^ 2 := by nlinarith [hsq, ha, h]
    exact ⟨by exact_mod_cast h1', by exact_mod_cast h2'⟩

/-- Looking a freshly saved entry up by the key it was saved under finds it. -/
theorem dirLookup_save {α : Type} (d : CacheDir α) (data : α) (kp : KeyParts)
    (ext : String) (maxAge : Option ℤ) (now : ℤ) :
    dirLookup (saveToCache d data kp ext maxAge now) (generateCacheKey kp, ext)
      = some ⟨data, now, maxAge, kp⟩ := by
  simp [dirLookup, saveToCache, List.find?]

/-- C3 (amended): immediately after `save_to_cache` with any nonnegative TTL,
`load_from_cache` with the same key parts, extension and TTL returns the
saved payload; once `now > created_at + ttl` with a strictly positive TTL it
returns `None`.  (For `ttl = 0` the expiry guard is skipped — the
counterexample — which forces the strict-positivity hypothesis here.) -/
theorem cacheManager_roundtrip_expiry (α : Type) (d : CacheDir α) (data : α)
    (kp : KeyParts) (ext : String) (ttl now createdAt : ℤ) :
    (0 ≤ ttl →
      loadFromCache (saveToCache d data kp ext (some ttl) now) kp ext (some ttl) now
        = some data) ∧
    (0 < ttl → createdAt + ttl < now →
      loadFromCache (saveToCache d data kp ext (some ttl) createdAt) kp ext (some ttl) now
        = none) := by
  constructor
  · intro h
    simp only [loadFromCache, dirLookup_save]
    have : cacheExpired (some ttl) (now - now) = false := by
      simp only [cacheExpired, sub_self, timedeltaTruthy]
      simp only [Bool.and_eq_false_iff]
      right
      simpa using not_lt.mpr h
    rw [this]
    rfl
  · intro h1 h2
    simp only [loadFromCache, dirLookup_save]
    have : cacheExpired (some ttl) (now - createdAt) = true := by
      simp only [cacheExpired, timedeltaTruthy, Bool.and_eq_true, decide_eq_true_eq]
      constructor
      · simpa using h1.ne'
      · omega
    rw [this]
    rfl

/-- C3 (counterexample): with `ttl = 0` the guard `if max_age and ...` is
skipped (`timedelta(0)` is falsy), so a load well past `created_at + ttl`
still returns the stale payload. -/
theorem cacheManager_ttl_zero_stale :
    loadFromCache (saveToCache ([] : CacheDir ℕ) 42 [("ticker", "BTC")] "json" (some 0) 0)
      [("ticker", "BTC")] "json" (some 0) 5 = some 42 ∧ ((0 : ℤ) + 0 < 5) := by
  exact ⟨rfl, by decide⟩

/-- C10: a frame shorter than 10 rows makes `backtest_strategy` return the
`insufficient_data` error, and the result does not depend on the strategy
function (or the capital, or the column check) at all: the guard precedes
every other step, whatever the strategy's own `min_required_rows()` says. -/
theorem backtest_minRows_guard (prices : List ℚ) (columnsOk columnsOk' : Bool)
    (f g : List ℚ → Except String (List (ℕ × SignalRow))) (cap cap' : ℚ)
    (h : prices.length < 10) :
    backtestStrategyTop prices columnsOk f cap = .error .insufficientData ∧
    backtestStrategyTop prices columnsOk f cap
      = backtestStrategyTop prices columnsOk' g cap' := by
  unfold backtestStrategyTop
  rw [if_pos h, if_pos h]
  exact ⟨rfl, rfl⟩

/-- C10 witness: a 3-row frame, two unrelated strategy functions. -/
theorem backtest_minRows_guard_witness :
    ([(1 : ℚ), 2, 3].length < 10) ∧
    (backtestStrategyTop [1, 2, 3] true (fun _ => .ok [(0, buyAllRow)]) 1000
        = .error .insufficientData ∧
      backtestStrategyTop [1, 2, 3] true (fun _ => .ok [(0, buyAllRow)]) 1000
        = backtestStrategyTop [1, 2, 3] false (fun _ => .error "boom") 500) :=
  ⟨by decide, backtest_minRows_guard [1, 2, 3] true false _ _ 1000 500 (by decide)⟩

/-- A signal row that is neither a buy nor a sell leaves the position
untouched. -/
theorem applySignalRow_hold (i : ℕ) (price : ℚ) (st : PortfolioState)
    (r : SignalRow) (h : r.stype ≠ some TradeType.buy ∧ r.stype ≠ some TradeType.sell) :
    (applySignalRow i price st r).1 = st := by
  unfold applySignalRow
  match hr : r.stype with
  | none => rfl
  | some TradeType.buy => exact absurd hr h.1
  | some TradeType.sell => exact absurd hr h.2

/-- A whole date's worth of non-buy/sell rows leaves the position
untouched. -/
theorem applySignals_hold (i : ℕ) (price : ℚ) (st : PortfolioState)
    (rows : List SignalRow)
    (h : ∀ r ∈ rows, r.stype ≠ some TradeType.buy ∧ r.stype ≠ some TradeType.sell) :
    (applySignals i price st rows).1 = st := by
  induction rows generalizing st with
  | nil => rfl
  | cons r rest ih =>
    have hr := applySignalRow_hold i price st r (h r (List.mem_cons_self r rest))
    simp only [applySignals]
    rw [hr]
    exact ih st (fun x hx => h x (List.mem_cons_of_mem r hx))

/-- C9: at a timestamp that carries no buy and no sell signal row — a hold —
the simulator's `(cash, coin_amount)` state entering the next timestamp is
exactly the state entering this one; only buy and sell rows can change it. -/
theorem hold_preserves_position (prices : List ℚ) (sigs : List (ℕ × SignalRow))
    (cap : ℚ) (i : ℕ)
    (h : ∀ r ∈ sigRowsAt sigs i,
      r.stype ≠ some TradeType.buy ∧ r.stype ≠ some TradeType.sell) :
    stateAt prices sigs cap (i + 1) = stateAt prices sigs cap i := by
  simp only [stateAt]
  exact applySignals_hold _ _ _ _ h

/-- C9 witness: a run whose only signal is a buy at row 0; row 3 is a hold. -/
theorem hold_preserves_position_witness :
    (∀ r ∈ sigRowsAt [(0, buyAllRow)] 3,
      r.stype ≠ some TradeType.buy ∧ r.stype ≠ some TradeType.sell) ∧
    stateAt (List.replicate 10 (10 : ℚ)) [(0, buyAllRow)] 1000 4
      = stateAt (List.replicate 10 (10 : ℚ)) [(0, buyAllRow)] 1000 3 :=
  ⟨by decide, hold_preserves_position _ _ _ 3 (by decide)⟩

/-- C5 (amended): `process_backtest_results` does annualize by
`(final/initial)^(365/total_days) - 1` and defines the value 0 when
`total_days ≤ 0`; but `calculate_performance` annualizes by the exponent
`1/max(total_days/365, 0.01)`, which coincides with `365/total_days`
exactly when `total_days ≥ 4`, and for `total_days ≤ 0` is 100 — so its
annualized return is not defined to be 0 there. -/
theorem annualization_formulas (d : ℤ) (r : ℚ) :
    (cpAnnualExponent d = specAnnualExponent d ↔ 4 ≤ d) ∧
    (d ≤ 0 → cpAnnualExponent d = 100 ∧ pbrAnnualReturnPct r d = some 0) ∧
    (0 < d → pbrAnnualReturnPct r d
      = (qpowOpt (1 + r / 100) (specAnnualExponent d)).map (fun x => (x - 1) * 100)) := by
  refine ⟨?_, ?_, ?_⟩
  · constructor
    · intro hEq
      by_contra hlt
      push_neg at hlt
      have hd3 : (d : ℚ) ≤ 3 := by exact_mod_cast (by omega : d ≤ 3)
      have hmax : max ((d : ℚ) / 365) (1 / 100) = 1 / 100 := by
        apply max_eq_right
        rw [div_le_div_iff₀ (by norm_num : (0 : ℚ) < 365) (by norm_num : (0 : ℚ) < 100)]
        linarith
      have h100 : cpAnnualExponent d = 100 := by
        simp only [cpAnnualExponent, hmax]
        norm_num
      rcases eq_or_ne d 0 with h0 | h0
      · rw [h100] at hEq
        subst h0
        simp only [specAnnualExponent, Int.cast_zero, div_zero] at hEq
        norm_num at hEq
      · have hdq : ((d : ℚ)) ≠ 0 := Int.cast_ne_zero.mpr h0
        rw [h100, specAnnualExponent] at hEq
        field_simp at hEq
        have h365 : (100 * d : ℤ) = 365 := by exact_mod_cast hEq
        omega
    · intro h4
      have hd4 : (4 : ℚ) ≤ (d : ℚ) := by exact_mod_cast h4
      have hyears : (1 : ℚ) / 100 ≤ (d : ℚ) / 365 := by
        rw [div_le_div_iff₀ (by norm_num : (0 : ℚ) < 100) (by norm_num : (0 : ℚ) < 365)]
        linarith
      simp only [cpAnnualExponent, specAnnualExponent, max_eq_left hyears]
      rw [one_div_div]
  · intro h
    have hd : (d : ℚ) ≤ 0 := by exact_mod_cast h
    have hmax : max ((d : ℚ) / 365) (1 / 100) = 1 / 100 := by
      apply max_eq_right
      have : (d : ℚ) / 365 ≤ 0 := div_nonpos_iff.mpr (Or.inr ⟨hd, by norm_num⟩)
      linarith
    constructor
    · simp only [cpAnnualExponent, hmax]
      norm_num
    · simp only [pbrAnnualReturnPct, if_neg (by omega : ¬(0 < d))]
  · intro h
    simp only [pbrAnnualReturnPct, if_pos h, specAnnualExponent]

/-- C5 (counterexample): a backtest over two rows of the same calendar day
(`total_days = 0`) with a 100% total return: `calculate_performance` reports
an annualized return of `(2^100 - 1)·100` percent, not the 0 the claim
requires for `total_days ≤ 0`. -/
theorem annualization_cex :
    (calcPerformance [0, 0] [1, 1] [] [100, 200] [0, 0] 100).annualReturnPct
      = cpAnnualReturnPct 100 0 ∧
    cpAnnualReturnPct 100 0 = some ((2 ^ 100 - 1) * 100) ∧
    ((2 : ℚ) ^ 100 - 1) * 100 ≠ 0 := by
  have hassets : assetHistory [1, 1] [100, 200] [0, 0] = [100, 200] := by
    with_unfolding_all decide
  have hexp : cpAnnualExponent 0 = 100 := by with_unfolding_all decide
  refine ⟨?_, ?_, by norm_num⟩
  · simp only [calcPerformance, hassets]
    rw [if_neg (by norm_num)]
    have h1 : ([(100 : ℚ), 200].getD ([(100 : ℚ), 200].length - 1) 0 - 100) / 100 * 100
        = 100 := by with_unfolding_all decide
    have h2 : ([(0 : ℤ), 0].getD ([(0 : ℤ), 0].length - 1) 0 - [(0 : ℤ), 0].getD 0 0)
        = 0 := by decide
    rw [h1, h2]
  · simp only [cpAnnualReturnPct, hexp, qpowOpt]
    rw [if_pos (by with_unfolding_all decide : ((100 : ℚ)).den = 1)]
    have hnum : ((100 : ℚ)).num = (100 : ℤ) := by with_unfolding_all decide
    rw [hnum]
    have hbase : (1 : ℚ) + 100 / 100 = 2 := by norm_num
    rw [hbase]
    have hz : (2 : ℚ) ^ (100 : ℤ) = (2 : ℚ) ^ (100 : ℕ) := by
      rw [show ((100 : ℤ)) = ((100 : ℕ) : ℤ) from rfl, zpow_natCast]
    rw [hz]
    rfl

/-- C8 (amended): with fewer than 2 equity points `calculate_performance`
returns the explicit all-zero metrics dict, and on daily returns of zero
variance the Sharpe ratio is the explicit 0 of the division guard; in both
cases no exception.  (Zero-variance returns do not zero the drawdown or the
annualized return — the counterexample — so the claim's all-zero conclusion
is kept only for the short-series case.) -/
theorem degenerate_perf (days : List ℤ) (closes : List ℚ) (trades : List TradeRecord)
    (cashH coinH : List ℚ) (cap : ℚ) :
    ((assetHistory closes cashH coinH).length < 2 →
      calcPerformance days closes trades cashH coinH cap = zeroPerfMetrics) ∧
    (sampleVar (dailyReturns (assetHistory closes cashH coinH)) = some 0 →
      (calcPerformance days closes trades cashH coinH cap).sharpeRatio = some 0) := by
  constructor
  · intro h
    simp only [calcPerformance, if_pos h]
  · intro h
    by_cases h2 : (assetHistory closes cashH coinH).length < 2
    · simp only [calcPerformance, if_pos h2, zeroPerfMetrics]
    · simp only [calcPerformance, if_neg h2, h]
      norm_num

/-- C8 (counterexample): a 3-point equity curve falling exactly 1% per step
has zero-variance daily returns, yet `calculate_performance` reports a
maximum drawdown of −1.99%, not 0. -/
theorem degenerate_perf_cex :
    sampleVar (dailyReturns (assetHistory [1, 1, 1] [100, 99, 9801 / 100] [0, 0, 0]))
      = some 0 ∧
    (calcPerformance [0, 1, 2] [1, 1, 1] [] [100, 99, 9801 / 100] [0, 0, 0] 100).maxDrawdownPct
      = -(199 / 100) ∧
    (-(199 / 100) : ℚ) ≠ 0 := by
  refine ⟨by with_unfolding_all decide, by with_unfolding_all decide, by norm_num⟩

/-- Filtering a pair list by a predicate that holds on every pair carrying
the looked-up key does not change a key lookup. -/
theorem find?_filter_key (l : List (String × ℚ)) (p : String × ℚ → Bool)
    (name : String) (hp : ∀ x : String × ℚ, x.1 = name → p x = true) :
    (l.filter p).find? (fun q => q.1 == name) = l.find? (fun q => q.1 == name) := by
  induction l with
  | nil => rfl
  | cons a l ih =>
    by_cases ha : a.1 = name
    · rw [List.filter_cons, if_pos (hp a ha),
        List.find?_cons_of_pos _ (by simpa using ha),
        List.find?_cons_of_pos _ (by simpa using ha)]
    · rw [List.filter_cons]
      by_cases hpa : p a = true
      · rw [if_pos hpa, List.find?_cons_of_neg _ (by simpa using ha),
          List.find?_cons_of_neg _ (by simpa using ha)]
        exact ih
      · rw [if_neg hpa, List.find?_cons_of_neg _ (by simpa using ha)]
        exact ih

/-- Hence a keyword lookup commutes with such a filter. -/
theorem kwGetD_filter (l : List (String × ℚ)) (p : String × ℚ → Bool)
    (name : String) (d : ℚ) (hp : ∀ x : String × ℚ, x.1 = name → p x = true) :
    kwGetD (l.filter p) name d = kwGetD l name d := by
  unfold kwGetD
  rw [find?_filter_key l p name hp]

/-- C6 (amended): `create_strategy` drops every keyword outside a fixed
per-strategy whitelist (for `rsi` the whitelist even omits six of the nine
declared spec parameters), hands the surviving values to the constructor
unchanged — no comparison against any spec's `min`/`max` — with constructor
defaults for missing keys, and returns `None` for an unknown code. -/
theorem factory_no_validation (kwargs : List (String × ℚ)) (key : String) (v : ℚ)
    (code : String) :
    (key ∉ factoryWhitelist (pyLower code) →
      createStrategy code ((key, v) :: kwargs) = createStrategy code kwargs) ∧
    (pyLower code ∉ (["sma", "bb", "macd", "rsi"] : List String) →
      createStrategy code kwargs = none) ∧
    createStrategy "sma" kwargs
      = some (.sma ⟨kwGetD kwargs "short_window" 10, kwGetD kwargs "long_window" 30⟩) := by
  refine ⟨?_, ?_, ?_⟩
  · intro hkey
    have hf : ((key, v) :: kwargs).filter
          (fun p => (factoryWhitelist (pyLower code)).contains p.1)
        = kwargs.filter (fun p => (factoryWhitelist (pyLower code)).contains p.1) := by
      rw [List.filter_cons, if_neg (by simpa using hkey)]
    simp only [createStrategy, hf]
  · intro hmem
    simp only [List.mem_cons, List.mem_singleton, not_or] at hmem
    obtain ⟨h1, h2, h3, h4, -⟩ := hmem
    simp only [createStrategy, if_neg h1, if_neg h2, if_neg h3, if_neg h4]
  · have htl : pyLower "sma" = "sma" := by decide
    have hws : ∀ x : String × ℚ, x.1 = "short_window" →
        ((factoryWhitelist "sma").contains x.1) = true := by
      intro x hx
      rw [hx]
      decide
    have hwl : ∀ x : String × ℚ, x.1 = "long_window" →
        ((factoryWhitelist "sma").contains x.1) = true := by
      intro x hx
      rw [hx]
      decide
    simp only [createStrategy, htl, if_true]
    rw [kwGetD_filter _ _ _ _ hws, kwGetD_filter _ _ _ _ hwl]

/-- C6 (witness): the first conjunct's hypothesis discharged at the unknown
key `foo` for the `sma` code. -/
theorem factory_no_validation_witness :
    (("foo" : String) ∉ factoryWhitelist (pyLower "sma") →
      createStrategy "sma" [("foo", 1), ("short_window", 7)]
        = createStrategy "sma" [("short_window", 7)]) ∧
    (pyLower "sma" ∉ (["sma", "bb", "macd", "rsi"] : List String) →
      createStrategy "sma" [("short_window", 7)] = none) ∧
    createStrategy "sma" [("short_window", 7)]
      = some (.sma ⟨kwGetD [("short_window", 7)] "short_window" 10,
          kwGetD [("short_window", 7)] "long_window" 30⟩) :=
  factory_no_validation [("short_window", 7)] "foo" 1 "sma"

set_option maxRecDepth 4000 in
/-- C6 (counterexample): `create_strategy("sma", short_window=1000)`
constructs the strategy with `short_window = 1000` although the declared
spec caps it at 50 — nothing rejects the out-of-range value — and
`create_strategy("rsi", exit_oversold=45)` silently drops a key that IS
declared in the rsi specs, leaving the default 50. -/
theorem factory_out_of_range_cex :
    createStrategy "sma" [("short_window", 1000)] = some (.sma ⟨1000, 30⟩) ∧
    (smaParamSpecs.find? (fun s => s.name == "short_window")).map ParamSpec.max
      = some 50 ∧
    ¬((1000 : ℚ) ≤ 50) ∧
    createStrategy "rsi" [("exit_oversold", 45)]
      = some (.rsi ⟨14, 70, 30, 50, 50, 7, 5, 5, 3⟩) ∧
    "exit_oversold" ∈ rsiParamSpecs.map ParamSpec.name := by
  refine ⟨by with_unfolding_all decide, by with_unfolding_all decide, by norm_num,
    by with_unfolding_all decide, by with_unfolding_all decide⟩

/-- A two-signal frame holds no row at any other index. -/
theorem sigRowsAt_pair_ne (i j k : ℕ) (a b : SignalRow) (hi : k ≠ i) (hj : k ≠ j) :
    sigRowsAt [(i, a), (j, b)] k = [] := by
  have hi' : (i == k) = false := by simpa using fun h => hi h.symm
  have hj' : (j == k) = false := by simpa using fun h => hj h.symm
  by_cases hij : j = i
  · subst hij
    simp [sigRowsAt, dedupKeepFirst, dedupKeepFirstAux, List.filter, hi']
  · have hij' : (j == i) = false := by simpa using hij
    simp [sigRowsAt, dedupKeepFirst, dedupKeepFirstAux, List.filter, hi', hj', hij',
      Ne.symm hi, Ne.symm hj]

/-- A two-signal frame's row at the first index. -/
theorem sigRowsAt_pair_fst (i j : ℕ) (a b : SignalRow) (hij : i ≠ j) :
    sigRowsAt [(i, a), (j, b)] i = [a] := by
  have hji' : (j == i) = false := by simpa using fun h => hij h.symm
  simp [sigRowsAt, dedupKeepFirst, dedupKeepFirstAux, List.filter, hji']

/-- A two-signal frame's row at the second index. -/
theorem sigRowsAt_pair_snd (i j : ℕ) (a b : SignalRow) (hij : i ≠ j) :
    sigRowsAt [(i, a), (j, b)] j = [b] := by
  have hji' : (j == i) = false := by simpa using fun h => hij h.symm
  have hij' : (i == j) = false := by simpa using hij
  simp [sigRowsAt, dedupKeepFirst, dedupKeepFirstAux, List.filter, hij', hji',
    Ne.symm hij]

/-- Between two signal-free rows the state does not move. -/
theorem stateAt_stable (prices : List ℚ) (sigs : List (ℕ × SignalRow)) (cap : ℚ)
    (a b : ℕ) (hab : a ≤ b)
    (h : ∀ k, a ≤ k → k < b → sigRowsAt sigs k = []) :
    stateAt prices sigs cap b = stateAt prices sigs cap a := by
  induction b with
  | zero =>
    have : a = 0 := Nat.le_zero.mp hab
    rw [this]
  | succ m ih =>
    rcases Nat.lt_or_ge a (m + 1) with hlt | hge
    · have ham : a ≤ m := Nat.lt_succ_iff.mp hlt
      have hm : sigRowsAt sigs m = [] := h m ham (Nat.lt_succ_self m)
      simp only [stateAt, hm, applySignals]
      exact ih ham (fun k hk1 hk2 => h k hk1 (Nat.lt_succ_of_lt hk2))
    · have : a = m + 1 := Nat.le_antisymm hab hge
      rw [this]

/-- `getD` on a replicated price list. -/
theorem replicate_getD (n : ℕ) (x : ℚ) (i : ℕ) (h : i < n) :
    (List.replicate n x).getD i 0 = x := by
  induction n generalizing i with
  | zero => omega
  | succ m ih =>
    cases i with
    | zero => rfl
    | succ j => exact ih j (by omega)

/-- Executing the single all-in buy row. -/
theorem applySignals_buyAll (i : ℕ) (price : ℚ) (st : PortfolioState)
    (h : 0 < st.cash) :
    (applySignals i price st [buyAllRow]).1
      = ⟨st.cash - st.cash * 1, st.coin + st.cash * 1 / price⟩ := by
  simp only [applySignals, applySignalRow, buyAllRow]
  rw [if_pos h]

/-- Executing the single all-out sell row. -/
theorem applySignals_sellAll (i : ℕ) (price : ℚ) (st : PortfolioState)
    (h : 0 < st.coin) :
    (applySignals i price st [sellAllRow]).1
      = ⟨st.cash + st.coin * 1 * price, st.coin - st.coin * 1⟩ := by
  simp only [applySignals, applySignalRow, sellAllRow]
  rw [if_pos h]

/-- C1 (amended): in `backtest_engine.backtest_strategy` no leg is charged
any fee: a buy converts the spent cash to `cash_spent / price` coins and a
sell returns `quantity × price` cash, with no `(1 − fee)` factor; so a buy
immediately followed by a sell on a flat price series returns
`final_capital = initial_capital` exactly — which in particular satisfies
both claimed inequalities, with ε = 0, for the repository's
`COMMISSION_RATE`. -/
theorem noFee_flat_roundtrip (price cap : ℚ) (n i : ℕ)
    (hp : 0 < price) (hc : 0 < cap) (hn : i + 2 ≤ n) :
    stateAt (List.replicate n price) [(i, buyAllRow), (i + 1, sellAllRow)] cap (i + 1)
      = ⟨cap - cap * 1, 0 + cap * 1 / price⟩ ∧
    stateAt (List.replicate n price) [(i, buyAllRow), (i + 1, sellAllRow)] cap (i + 2)
      = ⟨cap, 0⟩ ∧
    finalAsset (List.replicate n price) [(i, buyAllRow), (i + 1, sellAllRow)] cap = cap ∧
    finalAsset (List.replicate n price) [(i, buyAllRow), (i + 1, sellAllRow)] cap ≤ cap ∧
    cap * (1 - 2 * commissionRate)
      ≤ finalAsset (List.replicate n price) [(i, buyAllRow), (i + 1, sellAllRow)] cap := by
  have hii : (i : ℕ) ≠ i + 1 := by omega
  have h0 : stateAt (List.replicate n price) [(i, buyAllRow), (i + 1, sellAllRow)] cap i
      = ⟨cap, 0⟩ := by
    rw [stateAt_stable _ _ _ 0 i (Nat.zero_le i)
      (fun k _ hk2 => sigRowsAt_pair_ne i (i + 1) k _ _ (by omega) (by omega))]
    rfl
  have hbuy : stateAt (List.replicate n price) [(i, buyAllRow), (i + 1, sellAllRow)] cap (i + 1)
      = ⟨cap - cap * 1, 0 + cap * 1 / price⟩ := by
    simp only [stateAt]
    rw [sigRowsAt_pair_fst i (i + 1) _ _ hii, h0, replicate_getD n price i (by omega)]
    exact applySignals_buyAll i price ⟨cap, 0⟩ hc
  have hbuy' : stateAt (List.replicate n price) [(i, buyAllRow), (i + 1, sellAllRow)] cap (i + 1)
      = ⟨0, cap / price⟩ := by
    rw [hbuy]
    congr 1 <;> ring
  have hsell : stateAt (List.replicate n price) [(i, buyAllRow), (i + 1, sellAllRow)] cap (i + 2)
      = ⟨cap, 0⟩ := by
    show (applySignals (i + 1) _ _ _).1 = _
    rw [sigRowsAt_pair_snd i (i + 1) _ _ hii, hbuy',
      replicate_getD n price (i + 1) (by omega)]
    rw [applySignals_sellAll (i + 1) price ⟨0, cap / price⟩ (div_pos hc hp)]
    have hcoin : cap / price * 1 * price = cap := by
      field_simp
    congr 1
    · simpa using hcoin
    · ring
  have hfin : finalAsset (List.replicate n price) [(i, buyAllRow), (i + 1, sellAllRow)] cap
      = cap := by
    unfold finalAsset
    rw [List.length_replicate,
      stateAt_stable _ _ _ (i + 2) n hn
        (fun k hk1 _ => sigRowsAt_pair_ne i (i + 1) k _ _ (by omega) (by omega)),
      hsell]
    simp
  refine ⟨hbuy, hsell, hfin, ?_, ?_⟩
  · rw [hfin]
  · rw [hfin]
    have h1 : (1 - 2 * commissionRate : ℚ) ≤ 1 := by norm_num [commissionRate]
    calc cap * (1 - 2 * commissionRate) ≤ cap * 1 :=
          mul_le_mul_of_nonneg_left h1 hc.le
    _ = cap := mul_one cap

/-- C1 witness: price 10, capital 1000, ten flat rows, buy at row 0 and sell
at row 1. -/
theorem noFee_flat_roundtrip_witness :
    (0 < (10 : ℚ)) ∧ (0 < (1000 : ℚ)) ∧ (0 + 2 ≤ 10) ∧
    (stateAt (List.replicate 10 (10 : ℚ)) [(0, buyAllRow), (0 + 1, sellAllRow)] 1000 (0 + 1)
        = ⟨1000 - 1000 * 1, 0 + 1000 * 1 / 10⟩ ∧
      stateAt (List.replicate 10 (10 : ℚ)) [(0, buyAllRow), (0 + 1, sellAllRow)] 1000 (0 + 2)
        = ⟨1000, 0⟩ ∧
      finalAsset (List.replicate 10 (10 : ℚ)) [(0, buyAllRow), (0 + 1, sellAllRow)] 1000
        = 1000 ∧
      finalAsset (List.replicate 10 (10 : ℚ)) [(0, buyAllRow), (0 + 1, sellAllRow)] 1000
        ≤ 1000 ∧
      1000 * (1 - 2 * commissionRate)
        ≤ finalAsset (List.replicate 10 (10 : ℚ)) [(0, buyAllRow), (0 + 1, sellAllRow)] 1000) :=
  ⟨by norm_num, by norm_num, by norm_num,
    noFee_flat_roundtrip 10 1000 10 0 (by norm_num) (by norm_num) (by norm_num)⟩

set_option maxRecDepth 4000 in
/-- C1 (counterexample): the concrete run (flat price 10, capital 1000, buy
then sell).  The recorded buy trade carries `coin_amount = 100 = 1000/10`,
not `1000·(1 − COMMISSION_RATE)/10 = 99.95` as the claimed fee formula
requires; and the round trip returns the initial capital to the cent. -/
theorem noFee_trade_records_cex :
    tradeHistory (List.replicate 10 (10 : ℚ)) [(0, buyAllRow), (1, sellAllRow)] 1000
      = [⟨0, .buy, 10, 1000, 100⟩, ⟨1, .sell, 10, 1000, 100⟩] ∧
    (100 : ℚ) ≠ 1000 * (1 - commissionRate) / 10 ∧
    finalAsset (List.replicate 10 (10 : ℚ)) [(0, buyAllRow), (1, sellAllRow)] 1000
      = 1000 := by
  refine ⟨by with_unfolding_all decide, by norm_num [commissionRate],
    by with_unfolding_all decide⟩

set_option maxRecDepth 4000 in
/-- C2: the failing input for the Bollinger strategy.  At the last row of
this 10-row series (window 5, k = 2) the close 101 sits strictly between the
true bands — the window is [99, 99, 100, 101, 101] with mean 100 and sample
std 1, so the bands are 98 and 102 — yet `apply` emits the sell signal −1,
because its tuple unpacking binds the MIDDLE band to the `upper_band`
column.  By the spec (and the strategy's own docstring) the signal must
be 0. -/
theorem bb_upper_band_slip :
    (bbApply [100, 100, 100, 100, 100, 99, 99, 100, 101, 101] 5 2).toOption.map
        StrategyOutput.signal
      = some [0, 0, 0, 0, 0, 0, 0, -1, -1, -1] ∧
    rollingMeanAt [100, 100, 100, 100, 100, 99, 99, 100, 101, 101] 5 9 = some 100 ∧
    rollingVarAt [100, 100, 100, 100, 100, 99, 99, 100, 101, 101] 5 9 = some 1 ∧
    gtUpperBand 101 100 2 1 = false ∧
    ltLowerBand 101 100 2 1 = false ∧
    ((101 : ℝ) < 100 + 2 * Real.sqrt 1) := by
  refine ⟨by with_unfolding_all decide, by with_unfolding_all decide,
    by with_unfolding_all decide, by with_unfolding_all decide,
    by with_unfolding_all decide, ?_⟩
  rw [Real.sqrt_one]
  norm_num

/-- C7: every embedded strategy `apply` fails with the insufficient-data
error — carrying its `min_required_rows()` and the actual length — exactly
when the input is shorter than that minimum, and succeeds (the error branch
is not taken, a full signal frame is returned) otherwise.  The windows are
required positive: pandas rejects `window = 0` with a different error, and
every declared spec bounds them well above 0. -/
theorem apply_insufficient_iff (closes : List ℚ) (shortW longW w : ℕ) (k : ℚ)
    (p : RsiParams) (hshort : 1 ≤ shortW) (hlong : 1 ≤ longW) (hw : 1 ≤ w)
    (hrw : 1 ≤ p.window) :
    (closes.length < longW + 5 →
      smaApply closes shortW longW
        = .error (.insufficientData (longW + 5) closes.length)) ∧
    ((∃ out, smaApply closes shortW longW = .ok out) ↔ longW + 5 ≤ closes.length) ∧
    (closes.length < w + 5 →
      bbApply closes w k = .error (.insufficientData (w + 5) closes.length)) ∧
    ((∃ out, bbApply closes w k = .ok out) ↔ w + 5 ≤ closes.length) ∧
    (closes.length < p.window + 10 →
      rsiApply closes p = .error (.insufficientData (p.window + 10) closes.length)) ∧
    ((∃ out, rsiApply closes p = .ok out) ↔ p.window + 10 ≤ closes.length) := by
  refine ⟨?_, ?_, ?_, ?_, ?_, ?_⟩
  · intro h
    simp only [smaApply, validateData, if_pos h]
  · by_cases h : closes.length < longW + 5
    · simp only [smaApply, validateData, if_pos h]
      constructor
      · rintro ⟨out, hout⟩
        exact absurd hout (by simp)
      · intro hle
        omega
    · simp only [smaApply, validateData, if_neg h]
      constructor
      · intro _
        omega
      · intro _
        exact ⟨_, rfl⟩
  · intro h
    simp only [bbApply, validateData, if_pos h]
  · by_cases h : closes.length < w + 5
    · simp only [bbApply, validateData, if_pos h]
      constructor
      · rintro ⟨out, hout⟩
        exact absurd hout (by simp)
      · intro hle
        omega
    · simp only [bbApply, validateData, if_neg h]
      constructor
      · intro _
        omega
      · intro _
        exact ⟨_, rfl⟩
  · intro h
    simp only [rsiApply, validateData, if_pos h]
  · by_cases h : closes.length < p.window + 10
    · simp only [rsiApply, validateData, if_pos h]
      constructor
      · rintro ⟨out, hout⟩
        exact absurd hout (by simp)
      · intro hle
        omega
    · simp only [rsiApply, validateData, if_neg h]
      constructor
      · intro _
        omega
      · intro _
        exact ⟨_, rfl⟩

/-- C7 witness: a 3-row frame against SMA(2, 10), Bollinger(5, 2) and RSI
(window 14): each `apply` reports the insufficient-data error with its own
minimum, and none succeeds. -/
theorem apply_insufficient_iff_witness :
    (1 ≤ 2) ∧ (1 ≤ 10) ∧ (1 ≤ 5) ∧
    (1 ≤ (⟨14, 70, 30, 50, 50, 7, 5, 5, 3⟩ : RsiParams).window) ∧
    (([(1 : ℚ), 2, 3].length < 10 + 5 →
      smaApply [(1 : ℚ), 2, 3] 2 10
        = .error (.insufficientData (10 + 5) [(1 : ℚ), 2, 3].length)) ∧
    ((∃ out, smaApply [(1 : ℚ), 2, 3] 2 10 = .ok out) ↔
      10 + 5 ≤ [(1 : ℚ), 2, 3].length) ∧
    ([(1 : ℚ), 2, 3].length < 5 + 5 →
      bbApply [(1 : ℚ), 2, 3] 5 2
        = .error (.insufficientData (5 + 5) [(1 : ℚ), 2, 3].length)) ∧
    ((∃ out, bbApply [(1 : ℚ), 2, 3] 5 2 = .ok out) ↔
      5 + 5 ≤ [(1 : ℚ), 2, 3].length) ∧
    ([(1 : ℚ), 2, 3].length
        < (⟨14, 70, 30, 50, 50, 7, 5, 5, 3⟩ : RsiParams).window + 10 →
      rsiApply [(1 : ℚ), 2, 3] ⟨14, 70, 30, 50, 50, 7, 5, 5, 3⟩
        = .error (.insufficientData
            ((⟨14, 70, 30, 50, 50, 7, 5, 5, 3⟩ : RsiParams).window + 10)
            [(1 : ℚ), 2, 3].length)) ∧
    ((∃ out, rsiApply [(1 : ℚ), 2, 3] ⟨14, 70, 30, 50, 50, 7, 5, 5, 3⟩ = .ok out) ↔
      (⟨14, 70, 30, 50, 50, 7, 5, 5, 3⟩ : RsiParams).window + 10
        ≤ [(1 : ℚ), 2, 3].length)) :=
  ⟨by norm_num, by norm_num, by norm_num, by norm_num,
    apply_insufficient_iff [(1 : ℚ), 2, 3] 2 10 5 2 ⟨14, 70, 30, 50, 50, 7, 5, 5, 3⟩
      (by norm_num) (by norm_num) (by norm_num) (by norm_num)⟩

/-- The minimum-holding-period pass can only zero a signal, never invent or
flip one: at every position its output is the raw signal or 0. -/
theorem holdingFilterGo_getD (valid : ℕ → Bool) (mhp : ℕ) (raw : List ℤ)
    (i0 : ℕ) (last : Option ℕ) (j : ℕ) :
    (holdingFilterGo valid mhp i0 last raw).getD j 0 = raw.getD j 0 ∨
    (holdingFilterGo valid mhp i0 last raw).getD j 0 = 0 := by
  induction raw generalizing i0 last j with
  | nil => left; rfl
  | cons s rest ih =>
    rcases last with _ | l
    · simp only [holdingFilterGo]
      split
      · cases j with
        | zero => left; rfl
        | succ m => exact ih (i0 + 1) none m
      · split
        · cases j with
          | zero => left; rfl
          | succ m => exact ih (i0 + 1) (some i0) m
        · cases j with
          | zero => left; rfl
          | succ m => exact ih (i0 + 1) none m
    · simp only [holdingFilterGo]
      split
      · cases j with
        | zero => left; rfl
        | succ m => exact ih (i0 + 1) (some l) m
      · split
        · split
          · cases j with
            | zero => right; rfl
            | succ m => exact ih (i0 + 1) (some l) m
          · cases j with
            | zero => left; rfl
            | succ m => exact ih (i0 + 1) (some i0) m
        · cases j with
          | zero => left; rfl
          | succ m => exact ih (i0 + 1) (some l) m

/-- `getD` through `List.range _ |>.map f`. -/
theorem range_map_getD (n : ℕ) (f : ℕ → ℤ) (i : ℕ) :
    ((List.range n).map f).getD i 0 = if i < n then f i else 0 := by
  rw [List.getD_eq_getElem?_getD, List.getElem?_map]
  by_cases h : i < n
  · simp [List.getElem?_range, h]
  · rw [List.getElem?_eq_none (by simpa using Nat.le_of_not_lt h)]
    simp [h]

/-- A nonzero entry of the full RSI signal column is already a nonzero entry
of the raw (pre-holding-filter) column. -/
theorem rsiSignals_getD_raw (closes : List ℚ) (p : RsiParams) (i : ℕ) (v : ℤ)
    (hv : v ≠ 0) (h : (rsiSignals closes p).getD i 0 = v) :
    rsiRawSignalAt closes p i = v ∧ i < closes.length := by
  have hraw : ((List.range closes.length).map (rsiRawSignalAt closes p)).getD i 0 = v := by
    unfold rsiSignals at h
    by_cases hm : 0 < p.minHoldingPeriod
    · rw [if_pos hm] at h
      rcases holdingFilterGo_getD (fun i => (rsiAt closes p.window i).isSome)
          p.minHoldingPeriod ((List.range closes.length).map (rsiRawSignalAt closes p))
          0 none i with hc | hc
      · rw [← h, hc]
      · rw [hc] at h
        exact absurd h.symm hv
    · rw [if_neg hm] at h
      exact h
  rw [range_map_getD] at hraw
  by_cases hi : i < closes.length
  · rw [if_pos hi] at hraw
    exact ⟨hraw, hi⟩
  · rw [if_neg hi] at hraw
    exact absurd hraw.symm hv

/-- The only way the raw loop writes `+1` is the oversold-rebound rule with
the price-drop filter. -/
theorem rsiRawSignalAt_eq_one (closes : List ℚ) (p : RsiParams) (i : ℕ)
    (h : rsiRawSignalAt closes p i = 1) :
    ∃ ri rim, rsiAt closes p.window i = some ri ∧
      rsiAt closes p.window (i - 1) = some rim ∧
      rim < p.oversold ∧ rim < ri ∧ p.oversold < ri ∧
      priceDropOk closes p.priceCheckPeriod p.minPriceDrop i = true := by
  unfold rsiRawSignalAt at h
  split at h
  · exact absurd h (by decide)
  · split at h
    next ri rim hri hrim =>
      split at h
      next hcond =>
        split at h
        next hfilter => exact ⟨ri, rim, hri, hrim, hcond.1, hcond.2.1, hcond.2.2, hfilter⟩
        next => exact absurd h (by decide)
      next =>
        split at h
        next =>
          split at h
          next => exact absurd h (by decide)
          next => exact absurd h (by decide)
        next => exact absurd h (by decide)
    next => exact absurd h (by decide)

/-- The only way the raw loop writes `-1` is the overbought-decline rule
with the price-rise filter. -/
theorem rsiRawSignalAt_eq_negOne (closes : List ℚ) (p : RsiParams) (i : ℕ)
    (h : rsiRawSignalAt closes p i = -1) :
    ∃ ri rim, rsiAt closes p.window i = some ri ∧
      rsiAt closes p.window (i - 1) = some rim ∧
      p.overbought < rim ∧ ri < rim ∧ ri < p.overbought ∧
      priceRiseOk closes p.priceCheckPeriod p.minPriceRise i = true := by
  unfold rsiRawSignalAt at h
  split at h
  · exact absurd h (by decide)
  · split at h
    next ri rim hri hrim =>
      split at h
      next =>
        split at h
        next => exact absurd h (by decide)
        next => exact absurd h (by decide)
      next =>
        split at h
        next hcond =>
          split at h
          next hfilter => exact ⟨ri, rim, hri, hrim, hcond.1, hcond.2.1, hcond.2.2, hfilter⟩
          next => exact absurd h (by decide)
        next => exact absurd h (by decide)
    next => exact absurd h (by decide)

/-- C4 (amended): `RSIStrategy.apply` is not the claimed 3-state machine.
Its output never depends on `exit_overbought`/`exit_oversold` (they are
stored but never read), and a long entry (+1) occurs at `i` only under the
rebound rule — previous RSI below `oversold`, RSI rising and now above
`oversold`, and a recent price drop of at least `min_price_drop`% — with the
symmetric decline rule for a short entry (−1); no position state is kept
between rows beyond the minimum-holding-period suppression. -/
theorem rsi_rebound_rule (closes : List ℚ) (p : RsiParams) (e1 e2 e3 e4 : ℚ)
    (i : ℕ) :
    rsiApply closes { p with exitOverbought := e1, exitOversold := e2 }
      = rsiApply closes { p with exitOverbought := e3, exitOversold := e4 } ∧
    ((rsiSignals closes p).getD i 0 = 1 →
      ∃ ri rim, rsiAt closes p.window i = some ri ∧
        rsiAt closes p.window (i - 1) = some rim ∧
        rim < p.oversold ∧ rim < ri ∧ p.oversold < ri ∧
        priceDropOk closes p.priceCheckPeriod p.minPriceDrop i = true) ∧
    ((rsiSignals closes p).getD i 0 = -1 →
      ∃ ri rim, rsiAt closes p.window i = some ri ∧
        rsiAt closes p.window (i - 1) = some rim ∧
        p.overbought < rim ∧ ri < rim ∧ ri < p.overbought ∧
        priceRiseOk closes p.priceCheckPeriod p.minPriceRise i = true) := by
  refine ⟨rfl, ?_, ?_⟩
  · intro h
    exact rsiRawSignalAt_eq_one closes p i
      (rsiSignals_getD_raw closes p i 1 (by decide) h).1
  · intro h
    exact rsiRawSignalAt_eq_negOne closes p i
      (rsiSignals_getD_raw closes p i (-1) (by decide) h).1

set_option maxRecDepth 8000 in
/-- C4 (counterexample): on a steadily falling 12-row series with window 2
the RSI is 0 — far below the oversold bound 30 — from row 1 on, yet the
strategy never emits any entry signal: nothing "enters long when RSI falls
below the oversold parameter". -/
theorem rsi_no_entry_cex :
    (rsiApply [120, 110, 100, 90, 80, 70, 60, 50, 40, 30, 20, 10]
        ⟨2, 70, 30, 50, 50, 7, 5, 5, 3⟩).toOption.map StrategyOutput.signal
      = some [0, 0, 0, 0, 0, 0, 0, 0, 0, 0, 0, 0] ∧
    rsiAt [120, 110, 100, 90, 80, 70, 60, 50, 40, 30, 20, 10] 2 1 = some 0 ∧
    ((0 : ℚ) < 30) := by
  refine ⟨by with_unfolding_all decide, by with_unfolding_all decide, by norm_num⟩

end AlphaVibe
